import Mathlib

/-!
Shallow embedding of the request/response correlation layer of the actor
framework: `response_promise.cpp` (construction from a mailbox element,
`deliver_impl`, `deliver`) and the `split` helper of
`string_algorithms.hpp`.  Types that `response_promise.cpp` consumes but
whose own sources are not available (`message_id`, `actor_addr`,
`mailbox_element`, the `enqueue` interface, `make_message`) are modelled
from the specification and marked as such in their doc comments.
-/

namespace Caf

/-- Modelled from the spec: missing `message_id` (CorrelationId).  The spec
gives it a numeric identifier, a role flag (request vs. response) and an
answered flag; validity means the numeric id is non-absent (non-zero). -/
structure message_id where
  num : Nat
  is_response : Bool
  answered : Bool
deriving DecidableEq, Repr

/-- Modelled from the spec: missing `message_id::valid`; an absent/zero id
means no reply is expected (fire-and-forget). -/
def message_id.valid (m : message_id) : Bool :=
  m.num != 0

/-- Modelled from the spec: missing `message_id::response_id`; returns the
response-role counterpart of a request-role id, same numeric identifier
with the role flipped to response. -/
def message_id.response_id (m : message_id) : message_id :=
  { m with is_response := true }

/-- Modelled from the spec: missing `message_id::mark_as_answered`; an
idempotent state transition recording that the request slot was claimed. -/
def message_id.mark_as_answered (m : message_id) : message_id :=
  { m with answered := true }

/-- Modelled from the spec: missing `actor_addr` (Recipient).  An opaque
addressable destination; `invalid` is the moved-from/default state. -/
inductive actor_addr where
  | invalid : actor_addr
  | addr (n : Nat) : actor_addr
deriving DecidableEq, Repr

/-- Modelled from the spec: missing `error` payload values, identified only
by content at this layer. -/
structure error where
  code : Nat
deriving DecidableEq, Repr

/-- Modelled from the spec: the generic payload representation (`message`),
a serializable tagged union distinguished only by content. -/
inductive message where
  | data (n : Nat) : message
  | wrapped (e : error) : message
deriving DecidableEq, Repr

/-- Modelled from the spec: missing `make_message`; adapts an error value
into the generic payload representation used for success values. -/
def make_message (x : error) : message :=
  message.wrapped x

/-- Modelled from the spec: missing `mailbox_element`; the unit of work
taken off a mailbox: sender, correlation id, forwarding stack, payload.
The forwarding stack is ordered with its tail (the C++ vector back) as
the next hop. -/
structure mailbox_element where
  sender : actor_addr
  mid : message_id
  stages : List actor_addr
  msg : message
deriving DecidableEq, Repr

/-- Modelled from the spec: missing `mailbox_element::make`, used by the
forwarding branch of `deliver_impl` to build the new envelope. -/
def mailbox_element.make (sender : actor_addr) (mid : message_id)
    (stages : List actor_addr) (msg : message) : mailbox_element :=
  ⟨sender, mid, stages, msg⟩

/-- Modelled from the spec: the sole outbound interface.  The terminal
branch of `deliver_impl` calls the four-argument `enqueue` overload on the
stored sender; the forwarding branch calls the envelope overload on the
next hop.  Events record every argument the subsystem passes (the
execution context is identified with the delivering actor). -/
inductive enqueue_event where
  | response (target : actor_addr) (self_addr : Nat) (mid : message_id)
      (msg : message) : enqueue_event
  | forward (target : actor_addr) (env : mailbox_element) : enqueue_event
deriving DecidableEq, Repr

/-- `true` exactly on terminal (four-argument) enqueue calls. -/
def enqueue_event.isTerminal : enqueue_event → Bool
  | enqueue_event.response _ _ _ _ => true
  | enqueue_event.forward _ _ => false

/-- State of a `response_promise`: the delivering actor (address, also
standing for its execution context), the stored sender, the forwarding
stack and the correlation id, mirroring the members `self_`, `source_`,
`stages_`, `id_` of `response_promise.cpp`. -/
structure response_promise where
  self_ : Nat
  source_ : actor_addr
  stages_ : List actor_addr
  id_ : message_id
deriving DecidableEq, Repr

/-- The constructor `response_promise::response_promise(local_actor*,
mailbox_element&)`: moves `src.sender` and `src.stages` into the promise,
copies `src.mid` into `id_`, then marks the envelope copy of the id as
answered.  Returns the promise together with the spent envelope (its
moved-from sender is invalid and its moved-from stages vector is empty). -/
def response_promise.fromEnvelope (self : Nat) (src : mailbox_element) :
    response_promise × mailbox_element :=
  (⟨self, src.sender, src.stages, src.mid⟩,
   ⟨actor_addr.invalid, src.mid.mark_as_answered, [], src.msg⟩)

/-- Modelled from the spec: missing `response_promise::valid`; the spec
defines promise validity as the correlation id being non-absent. -/
def response_promise.valid (p : response_promise) : Bool :=
  p.id_.valid

/-- `response_promise::deliver_impl(message)`: returns the promise state
after the call together with the list of enqueue calls it issued.  The
terminal branch enqueues to `source_` with the response-role id and leaves
the members untouched; the forwarding branch moves the popped back of
`stages_` out as the target and moves `source_` and the shortened
`stages_` into a fresh envelope. -/
def response_promise.deliver_impl (p : response_promise) (msg : message) :
    response_promise × List enqueue_event :=
  if p.valid = false then
    (p, [])
  else
    match p.stages_.getLast? with
    | none =>
        (p, [enqueue_event.response p.source_ p.self_ p.id_.response_id msg])
    | some next =>
        (⟨p.self_, actor_addr.invalid, [], p.id_⟩,
         [enqueue_event.forward next
            (mailbox_element.make p.source_ p.id_ p.stages_.dropLast msg)])

/-- `response_promise::deliver(error)`: wraps the error through
`make_message` and routes it through `deliver_impl`, guarded by the
validity of `id_`. -/
def response_promise.deliver (p : response_promise) (x : error) :
    response_promise × List enqueue_event :=
  if p.id_.valid then p.deliver_impl (make_message x) else (p, [])

/-- One pipeline stage as the spec describes it: the actor `self` takes the
envelope off its mailbox, builds a `response_promise` from it and calls
`deliver_impl` with its payload; the result is the list of enqueue calls
issued at this stage. -/
def hop_step (self : Nat) (env : mailbox_element) (msg : message) :
    List enqueue_event :=
  (((response_promise.fromEnvelope self env).1).deliver_impl msg).2

/-- The envelope handed to the next stage, if the stage issued exactly one
forwarding enqueue. -/
def forwarded_env : List enqueue_event → Option mailbox_element
  | [enqueue_event.forward _ e] => some e
  | _ => none

/-- Runs up to `fuel` pipeline stages starting from `env`: stage `i` is
executed by actor `selves i` delivering payload `msgs i`; whenever a stage
issues a forwarding enqueue, the carried envelope is handed to the next
stage.  Accumulates every enqueue call issued. -/
def run_pipeline (selves : Nat → Nat) (msgs : Nat → message) :
    Nat → mailbox_element → List enqueue_event
  | 0, _ => []
  | Nat.succ n, env =>
      hop_step (selves 0) env (msgs 0) ++
        (match forwarded_env (hop_step (selves 0) env (msgs 0)) with
         | some e => run_pipeline (fun i => selves (i + 1)) (fun i => msgs (i + 1)) n e
         | none => [])

/-- Helper for `findFirstOf`: the absolute index of the first character of
`l` (whose first character sits at absolute index `i`) that belongs to
`delims`. -/
def findIdxFrom (delims : List Char) : List Char → Nat → Option Nat
  | [], _ => none
  | c :: cs, i =>
      if delims.contains c then some i else findIdxFrom delims cs (i + 1)

/-- The C++ call `str.find_first_of(delims, prev)`: the index of the first
character at position at least `prev` that belongs to `delims`, or `none`
for `npos`. -/
def findFirstOf (str delims : List Char) (prev : Nat) : Option Nat :=
  findIdxFrom delims (str.drop prev) prev

/-- The loop of `split` from `string_algorithms.hpp`: while
`find_first_of` hits a delimiter at `pos`, push `str.substr(prev,
pos - prev)` when `pos > prev` and the substring is non-empty or
`keep_all` holds, then continue from `pos + 1`; afterwards push the
trailing `str.substr(prev)` when `prev < str.size()`. -/
def splitLoop (str delims : List Char) (keep_all : Bool) (prev : Nat)
    (result : List (List Char)) : List (List Char) :=
  match _hfind : findFirstOf str delims prev with
  | some pos =>
      splitLoop str delims keep_all (pos + 1)
        (if prev < pos then
           (if (str.drop prev).take (pos - prev) ≠ [] ∨ keep_all = true then
              result ++ [(str.drop prev).take (pos - prev)]
            else result)
         else result)
  | none =>
      if prev < str.length then result ++ [str.drop prev] else result
termination_by str.length - prev
decreasing_by
  have key : ∀ (l : List Char) (i j : Nat),
      findIdxFrom delims l i = some j → i ≤ j ∧ j < i + l.length := by
    intro l
    induction l with
    | nil => intro i j hj; simp [findIdxFrom] at hj
    | cons c cs ih =>
        intro i j hj
        by_cases hc : c ∈ delims
        · simp [findIdxFrom, hc] at hj
          simp [List.length_cons]
          omega
        · simp [findIdxFrom, hc] at hj
          have hb := ih (i + 1) j hj
          simp [List.length_cons]
          omega
  have hb := key (str.drop prev) prev pos _hfind
  have hdl : (str.drop prev).length = str.length - prev := by simp
  omega

/-- `caf::split`: runs the loop on an initially empty result container. -/
def split (str delims : List Char) (keep_all : Bool) : List (List Char) :=
  splitLoop str delims keep_all 0 []

/-- A concrete valid promise with an empty forwarding chain, used to
exercise repeated terminal delivery. -/
def c1_promise : response_promise :=
  ⟨1, actor_addr.addr 2, [], ⟨42, false, false⟩⟩

/-- A concrete promise built from a fire-and-forget request (absent id). -/
def c2_promise : response_promise :=
  ⟨1, actor_addr.addr 2, [actor_addr.addr 3], ⟨0, false, false⟩⟩

/-- A concrete valid promise with an empty forwarding chain. -/
def c3_promise : response_promise :=
  ⟨1, actor_addr.addr 2, [], ⟨42, false, false⟩⟩

/-- A concrete valid promise with the two-stage forwarding chain of the
spec scenario: chain = A, B with B at the back. -/
def c4_promise : response_promise :=
  ⟨1, actor_addr.addr 9, [actor_addr.addr 5, actor_addr.addr 6], ⟨7, false, false⟩⟩

/-- A concrete valid request envelope with a two-hop forwarding chain. -/
def c5_env : mailbox_element :=
  ⟨actor_addr.addr 9, ⟨7, false, false⟩,
   [actor_addr.addr 5, actor_addr.addr 6], message.data 0⟩

/-!  Theorems settling the claims. -/

/-- C2: for every promise whose correlation id is invalid (fire-and-forget
request), both `deliver_impl` and `deliver` are no-ops: the state is
unchanged and zero enqueue calls occur, regardless of the payload or the
error value. -/
theorem invalid_promise_deliver_noop (p : response_promise) (msg : message)
    (x : error) (h : p.id_.valid = false) :
    p.deliver_impl msg = (p, []) ∧ p.deliver x = (p, []) := by
  constructor
  · simp [response_promise.deliver_impl, response_promise.valid, h]
  · simp [response_promise.deliver, h]

/-- Witness for C2 at a concrete fire-and-forget promise. -/
theorem invalid_promise_deliver_noop_witness :
    c2_promise.id_.valid = false ∧
    (c2_promise.deliver_impl (message.data 7) = (c2_promise, []) ∧
     c2_promise.deliver (error.mk 3) = (c2_promise, [])) :=
  ⟨by decide, invalid_promise_deliver_noop c2_promise (message.data 7)
    (error.mk 3) (by decide)⟩

/-- C3: for every valid promise with an empty forwarding chain, one
`deliver_impl` call issues exactly one enqueue, targeting the stored
sender, passing the delivering actor address, the correlation id
transformed by `response_id`, and the payload. -/
theorem terminal_delivery_single_enqueue (p : response_promise)
    (msg : message) (h1 : p.valid = true) (h2 : p.stages_ = []) :
    (p.deliver_impl msg).2 =
      [enqueue_event.response p.source_ p.self_ p.id_.response_id msg] := by
  simp [response_promise.deliver_impl, h1, h2]

/-- Witness for C3 at a concrete valid empty-chain promise. -/
theorem terminal_delivery_single_enqueue_witness :
    c3_promise.valid = true ∧ c3_promise.stages_ = [] ∧
    (c3_promise.deliver_impl (message.data 5)).2 =
      [enqueue_event.response c3_promise.source_ c3_promise.self_
        c3_promise.id_.response_id (message.data 5)] :=
  ⟨by decide, by decide,
   terminal_delivery_single_enqueue c3_promise (message.data 5)
     (by decide) (by decide)⟩

/-- C4: for every valid promise whose forwarding chain is non-empty (its
back element is `next`), one `deliver_impl` call issues exactly one
enqueue, to `next`, carrying an envelope with the unchanged sender, the
unchanged request-role correlation id, the chain with only the back
element removed (length N - 1), and the payload. -/
theorem forwarding_delivery_single_enqueue (p : response_promise)
    (msg : message) (next : actor_addr) (h1 : p.valid = true)
    (h2 : p.stages_.getLast? = some next) :
    (p.deliver_impl msg).2 =
      [enqueue_event.forward next
        (mailbox_element.make p.source_ p.id_ p.stages_.dropLast msg)] ∧
    p.stages_.dropLast.length = p.stages_.length - 1 := by
  refine ⟨?_, List.length_dropLast _⟩
  simp [response_promise.deliver_impl, h1, h2]

/-- Witness for C4 at a concrete promise with chain of length two. -/
theorem forwarding_delivery_single_enqueue_witness :
    c4_promise.valid = true ∧
    c4_promise.stages_.getLast? = some (actor_addr.addr 6) ∧
    ((c4_promise.deliver_impl (message.data 5)).2 =
      [enqueue_event.forward (actor_addr.addr 6)
        (mailbox_element.make c4_promise.source_ c4_promise.id_
          c4_promise.stages_.dropLast (message.data 5))] ∧
     c4_promise.stages_.dropLast.length = c4_promise.stages_.length - 1) :=
  ⟨by decide, by decide,
   forwarding_delivery_single_enqueue c4_promise (message.data 5)
     (actor_addr.addr 6) (by decide) (by decide)⟩

/-- C6: for every promise and every error value, `deliver` has exactly the
same result (state change and enqueue calls) as `deliver_impl` applied to
the error wrapped by `make_message`; there is no separate error path. -/
theorem deliver_eq_deliver_impl_wrapped (p : response_promise) (x : error) :
    p.deliver x = p.deliver_impl (make_message x) := by
  cases hv : p.id_.valid with
  | false =>
      simp [response_promise.deliver, response_promise.deliver_impl,
            response_promise.valid, hv]
  | true => simp [response_promise.deliver, hv]

/-- C7: constructing a promise from an envelope copies the correlation id
into the promise before marking, and marks the envelope copy of the id as
answered; the marking happens at consumption time, independent of any
later delivery. -/
theorem construction_marks_answered (self : Nat) (env : mailbox_element) :
    ((response_promise.fromEnvelope self env).1).id_ = env.mid ∧
    ((response_promise.fromEnvelope self env).2).mid =
      env.mid.mark_as_answered ∧
    ((response_promise.fromEnvelope self env).2).mid.answered = true := by
  simp [response_promise.fromEnvelope, message_id.mark_as_answered]

/-- C8: constructing a promise from an envelope transfers the sender and
the forwarding chain into the promise and leaves the envelope spent: its
moved-from sender is invalid and its moved-from chain is empty. -/
theorem construction_transfers_ownership (self : Nat)
    (env : mailbox_element) :
    ((response_promise.fromEnvelope self env).1).source_ = env.sender ∧
    ((response_promise.fromEnvelope self env).1).stages_ = env.stages ∧
    ((response_promise.fromEnvelope self env).2).sender =
      actor_addr.invalid ∧
    ((response_promise.fromEnvelope self env).2).stages = [] := by
  simp [response_promise.fromEnvelope]

/-- C9: for every valid request-role correlation id, `response_id` (a pure
function) yields an id whose role is response and whose numeric identifier
is unchanged. -/
theorem response_id_round_trip (m : message_id) (_h1 : m.valid = true)
    (_h2 : m.is_response = false) :
    m.response_id.is_response = true ∧ m.response_id.num = m.num := by
  simp [message_id.response_id]

/-- Witness for C9 at the concrete request id 42. -/
theorem response_id_round_trip_witness :
    (message_id.mk 42 false false).valid = true ∧
    (message_id.mk 42 false false).is_response = false ∧
    ((message_id.mk 42 false false).response_id.is_response = true ∧
     (message_id.mk 42 false false).response_id.num =
       (message_id.mk 42 false false).num) :=
  ⟨by decide, by decide,
   response_id_round_trip (message_id.mk 42 false false)
     (by decide) (by decide)⟩

/-- C1 counterexample: on a concrete valid promise with an empty chain, a
terminal delivery followed by a second `deliver_impl` on the resulting
state issues a second enqueue, so the second invocation is not
effect-free. -/
theorem terminal_redelivery_counterexample :
    (((c1_promise.deliver_impl (message.data 5)).1).deliver_impl
        (message.data 5)).2.length = 1 := by
  decide

/-- C1 (amended): a terminal delivery (valid promise, empty chain) leaves
the promise state completely unchanged — only the forwarding branch
consumes the sender and the chain — so a second `deliver_impl` on the
post-delivery state issues exactly one further enqueue, identical in
target and response id; exactly-once finalization is not enforced by the
promise itself. -/
theorem terminal_delivery_leaves_state_unchanged (p : response_promise)
    (msg msg2 : message) (h1 : p.valid = true) (h2 : p.stages_ = []) :
    (p.deliver_impl msg).1 = p ∧
    ((p.deliver_impl msg).1.deliver_impl msg2).2 =
      [enqueue_event.response p.source_ p.self_ p.id_.response_id msg2] := by
  have hstate : (p.deliver_impl msg).1 = p := by
    simp [response_promise.deliver_impl, h1, h2]
  refine ⟨hstate, ?_⟩
  rw [hstate]
  simp [response_promise.deliver_impl, h1, h2]

/-- One-step unfolding of `run_pipeline` at a successor fuel value. -/
theorem run_pipeline_succ (selves : Nat → Nat) (msgs : Nat → message)
    (n : Nat) (env : mailbox_element) :
    run_pipeline selves msgs (n + 1) env =
      hop_step (selves 0) env (msgs 0) ++
        (match forwarded_env (hop_step (selves 0) env (msgs 0)) with
         | some e =>
             run_pipeline (fun i => selves (i + 1)) (fun i => msgs (i + 1))
               n e
         | none => []) := rfl

/-- Helper for C5: running one stage plus one stage per remaining hop on a
valid envelope with chain length `n` issues exactly one terminal enqueue,
to the original sender, with the response-role counterpart of the original
correlation id; it is executed by the last stage with its payload. -/
theorem run_pipeline_filter_terminal :
    ∀ (n : Nat) (selves : Nat → Nat) (msgs : Nat → message)
      (env : mailbox_element), env.stages.length = n →
      env.mid.valid = true →
      (run_pipeline selves msgs (n + 1) env).filter
          enqueue_event.isTerminal =
        [enqueue_event.response env.sender (selves n) env.mid.response_id
          (msgs n)] := by
  intro n
  induction n with
  | zero =>
      intro selves msgs env hlen hval
      have hnil : env.stages = [] := List.length_eq_zero.mp hlen
      have hh : hop_step (selves 0) env (msgs 0) =
          [enqueue_event.response env.sender (selves 0)
            env.mid.response_id (msgs 0)] := by
        simp [hop_step, response_promise.fromEnvelope,
              response_promise.deliver_impl, response_promise.valid,
              hval, hnil]
      simp [run_pipeline, hh, forwarded_env, List.filter,
            enqueue_event.isTerminal]
  | succ n ih =>
      intro selves msgs env hlen hval
      cases hl : env.stages.getLast? with
      | none =>
          rw [List.getLast?_eq_none_iff] at hl
          rw [hl] at hlen
          simp at hlen
      | some l =>
          have hh : hop_step (selves 0) env (msgs 0) =
              [enqueue_event.forward l
                (mailbox_element.make env.sender env.mid
                  env.stages.dropLast (msgs 0))] := by
            simp [hop_step, response_promise.fromEnvelope,
                  response_promise.deliver_impl, response_promise.valid,
                  hval, hl]
          have hlen2 : (mailbox_element.make env.sender env.mid
              env.stages.dropLast (msgs 0)).stages.length = n := by
            simp [mailbox_element.make, List.length_dropLast, hlen]
          have hval2 : (mailbox_element.make env.sender env.mid
              env.stages.dropLast (msgs 0)).mid.valid = true := by
            simpa [mailbox_element.make] using hval
          have hrec := ih (fun i => selves (i + 1)) (fun i => msgs (i + 1))
            _ hlen2 hval2
          rw [run_pipeline_succ, hh]
          simp only [forwarded_env]
          simp only [List.filter_append, List.filter,
                     enqueue_event.isTerminal]
          simpa [mailbox_element.make] using hrec

/-- C5: for every valid request envelope with a forwarding chain of length
N, running the initial stage plus the N hop stages (each stage building a
promise from the envelope it received and calling `deliver_impl`) yields
exactly one terminal enqueue, addressed to the original sender, carrying
the response-role counterpart of the original correlation id. -/
theorem pipeline_exactly_one_terminal (selves : Nat → Nat)
    (msgs : Nat → message) (env : mailbox_element)
    (h : env.mid.valid = true) :
    (run_pipeline selves msgs (env.stages.length + 1) env).filter
        enqueue_event.isTerminal =
      [enqueue_event.response env.sender (selves env.stages.length)
        env.mid.response_id (msgs env.stages.length)] :=
  run_pipeline_filter_terminal env.stages.length selves msgs env rfl h

/-- Witness for C5 at a concrete valid two-hop envelope. -/
theorem pipeline_exactly_one_terminal_witness :
    c5_env.mid.valid = true ∧
    (run_pipeline (fun i => i + 100) (fun _ => message.data 3)
        (c5_env.stages.length + 1) c5_env).filter
        enqueue_event.isTerminal =
      [enqueue_event.response c5_env.sender
        ((fun i => i + 100) c5_env.stages.length)
        c5_env.mid.response_id
        ((fun _ => message.data 3) c5_env.stages.length)] :=
  ⟨by decide,
   pipeline_exactly_one_terminal (fun i => i + 100)
     (fun _ => message.data 3) c5_env (by decide)⟩

/-- Witness for the amended C1 at a concrete valid empty-chain promise. -/
theorem terminal_delivery_leaves_state_unchanged_witness :
    c1_promise.valid = true ∧ c1_promise.stages_ = [] ∧
    ((c1_promise.deliver_impl (message.data 5)).1 = c1_promise ∧
     ((c1_promise.deliver_impl (message.data 5)).1.deliver_impl
         (message.data 6)).2 =
       [enqueue_event.response c1_promise.source_ c1_promise.self_
         c1_promise.id_.response_id (message.data 6)]) :=
  ⟨by decide, by decide,
   terminal_delivery_leaves_state_unchanged c1_promise (message.data 5)
     (message.data 6) (by decide) (by decide)⟩

/-- Bounds of `findIdxFrom`: a found index is at least the starting
absolute index and within the scanned segment. -/
theorem findIdxFrom_bounds (delims : List Char) :
    ∀ (l : List Char) (i j : Nat), findIdxFrom delims l i = some j →
      i ≤ j ∧ j < i + l.length := by
  intro l
  induction l with
  | nil => intro i j hj; simp [findIdxFrom] at hj
  | cons c cs ih =>
      intro i j hj
      by_cases hc : c ∈ delims
      · simp [findIdxFrom, hc] at hj
        simp [List.length_cons]
        omega
      · simp [findIdxFrom, hc] at hj
        have hb := ih (i + 1) j hj
        simp [List.length_cons]
        omega

/-- Bounds of `findFirstOf`: a found position is at least `prev` and
within the string. -/
theorem findFirstOf_bounds (str delims : List Char) (prev pos : Nat)
    (h : findFirstOf str delims prev = some pos) :
    prev ≤ pos ∧ pos < str.length := by
  have hb := findIdxFrom_bounds delims (str.drop prev) prev pos h
  have hdl : (str.drop prev).length = str.length - prev := by simp
  omega

/-- The substring pushed inside the loop is non-empty whenever the
delimiter position lies strictly beyond `prev` and within the string. -/
theorem take_drop_ne_nil (str : List Char) (prev pos : Nat)
    (h1 : prev < pos) (h2 : pos < str.length) :
    (str.drop prev).take (pos - prev) ≠ [] := by
  intro hcontra
  have hlen : ((str.drop prev).take (pos - prev)).length = 0 := by
    rw [hcontra]; rfl
  rw [List.length_take, List.length_drop] at hlen
  omega

/-- Unfolding of `splitLoop` when `find_first_of` hits a delimiter. -/
theorem splitLoop_eq_some (str delims : List Char) (keep_all : Bool)
    (prev : Nat) (result : List (List Char)) (pos : Nat)
    (h : findFirstOf str delims prev = some pos) :
    splitLoop str delims keep_all prev result =
      splitLoop str delims keep_all (pos + 1)
        (if prev < pos then
           (if (str.drop prev).take (pos - prev) ≠ [] ∨ keep_all = true then
              result ++ [(str.drop prev).take (pos - prev)]
            else result)
         else result) := by
  conv_lhs => unfold splitLoop
  split
  · rename_i pos2 h2
    rw [h] at h2
    injection h2 with h3
    rw [h3]
  · rename_i h2
    rw [h2] at h
    exact Option.noConfusion h

/-- Unfolding of `splitLoop` when `find_first_of` reports `npos`. -/
theorem splitLoop_eq_none (str delims : List Char) (keep_all : Bool)
    (prev : Nat) (result : List (List Char))
    (h : findFirstOf str delims prev = none) :
    splitLoop str delims keep_all prev result =
      (if prev < str.length then result ++ [str.drop prev] else result) := by
  conv_lhs => unfold splitLoop
  split
  · rename_i pos2 h2
    rw [h2] at h
    exact Option.noConfusion h
  · rfl

/-- The `keep_all` flag never changes the outcome of the loop: every
substring considered for pushing is non-empty, so the guard it weakens is
already true. -/
theorem splitLoop_keepAll_irrelevant (str delims : List Char) (prev : Nat)
    (result : List (List Char)) :
    splitLoop str delims true prev result =
      splitLoop str delims false prev result := by
  cases hfind : findFirstOf str delims prev with
  | some pos =>
      rw [splitLoop_eq_some str delims true prev result pos hfind,
          splitLoop_eq_some str delims false prev result pos hfind]
      have hres : (if prev < pos then
             (if (str.drop prev).take (pos - prev) ≠ [] ∨ (true : Bool) = true
                then result ++ [(str.drop prev).take (pos - prev)]
              else result)
           else result) =
          (if prev < pos then
             (if (str.drop prev).take (pos - prev) ≠ [] ∨ (false : Bool) = true
                then result ++ [(str.drop prev).take (pos - prev)]
              else result)
           else result) := by
        by_cases hp : prev < pos
        · have hb := findFirstOf_bounds str delims prev pos hfind
          have hne := take_drop_ne_nil str prev pos hp hb.2
          simp [hp, hne]
        · simp [hp]
      rw [hres]
      exact splitLoop_keepAll_irrelevant str delims (pos + 1) _
  | none =>
      rw [splitLoop_eq_none str delims true prev result hfind,
          splitLoop_eq_none str delims false prev result hfind]
termination_by str.length - prev
decreasing_by
  have hb := findFirstOf_bounds str delims prev pos hfind
  omega

/-- The loop never pushes an empty token: if every token already in the
result container is non-empty, so is every token in the final result. -/
theorem splitLoop_no_empty (str delims : List Char) (keep_all : Bool)
    (prev : Nat) (result : List (List Char))
    (hres : ∀ t ∈ result, t ≠ []) :
    ∀ t ∈ splitLoop str delims keep_all prev result, t ≠ [] := by
  cases hfind : findFirstOf str delims prev with
  | some pos =>
      rw [splitLoop_eq_some str delims keep_all prev result pos hfind]
      apply splitLoop_no_empty
      intro t ht
      by_cases hp : prev < pos
      · have hb := findFirstOf_bounds str delims prev pos hfind
        have hne := take_drop_ne_nil str prev pos hp hb.2
        simp [hp, hne] at ht
        rcases ht with ht | ht
        · exact hres t ht
        · rw [ht]; exact hne
      · simp [hp] at ht
        exact hres t ht
  | none =>
      rw [splitLoop_eq_none str delims keep_all prev result hfind]
      intro t ht
      by_cases hp : prev < str.length
      · simp [hp] at ht
        rcases ht with ht | ht
        · exact hres t ht
        · rw [ht]
          intro hcontra
          have hlen : ((str.drop prev) : List Char).length = 0 := by
            rw [hcontra]; rfl
          rw [List.length_drop] at hlen
          omega
      · simp [hp] at ht
        exact hres t ht
termination_by str.length - prev
decreasing_by
  have hb := findFirstOf_bounds str delims prev pos hfind
  omega

/-- C10: for every input string and delimiter set, `split` never places an
empty token in the result (leading, consecutive and trailing delimiters
produce no empty tokens), and consequently the `keep_all` flag has no
observable effect on the output. -/
theorem split_no_empty_token (str delims : List Char) (keep_all : Bool) :
    (∀ t ∈ split str delims keep_all, t ≠ []) ∧
    split str delims true = split str delims false := by
  constructor
  · exact splitLoop_no_empty str delims keep_all 0 [] (by simp)
  · exact splitLoop_keepAll_irrelevant str delims 0 []

/-- Witness for C10 on the concrete string "ab,,cd," with delimiter
comma: the result is the two tokens "ab" and "cd" for either value of
`keep_all`, and the token "ab" is non-empty. -/
theorem split_no_empty_token_witness :
    (['a', 'b'] : List Char) ∈
        split ['a', 'b', ',', ',', 'c', 'd', ','] [','] true ∧
    (['a', 'b'] : List Char) ≠ [] ∧
    split ['a', 'b', ',', ',', 'c', 'd', ','] [','] true =
      split ['a', 'b', ',', ',', 'c', 'd', ','] [','] false := by
  have h0 : findFirstOf ['a', 'b', ',', ',', 'c', 'd', ','] [','] 0 =
      some 2 := by decide
  have h3 : findFirstOf ['a', 'b', ',', ',', 'c', 'd', ','] [','] 3 =
      some 3 := by decide
  have h4 : findFirstOf ['a', 'b', ',', ',', 'c', 'd', ','] [','] 4 =
      some 6 := by decide
  have h7 : findFirstOf ['a', 'b', ',', ',', 'c', 'd', ','] [','] 7 =
      none := by decide
  have heval : ∀ keep_all : Bool,
      split ['a', 'b', ',', ',', 'c', 'd', ','] [','] keep_all =
        [['a', 'b'], ['c', 'd']] := by
    intro keep_all
    show splitLoop ['a', 'b', ',', ',', 'c', 'd', ','] [','] keep_all 0 [] =
      [['a', 'b'], ['c', 'd']]
    rw [splitLoop_eq_some _ _ _ _ _ _ h0]
    rw [show (2 : Nat) + 1 = 3 from rfl]
    rw [splitLoop_eq_some _ _ _ _ _ _ h3]
    rw [show (3 : Nat) + 1 = 4 from rfl]
    rw [splitLoop_eq_some _ _ _ _ _ _ h4]
    rw [show (6 : Nat) + 1 = 7 from rfl]
    rw [splitLoop_eq_none _ _ _ _ _ h7]
    cases keep_all <;> decide
  have hmem : (['a', 'b'] : List Char) ∈
      split ['a', 'b', ',', ',', 'c', 'd', ','] [','] true := by
    rw [heval true]
    decide
  exact ⟨hmem,
    (split_no_empty_token ['a', 'b', ',', ',', 'c', 'd', ','] [','] true).1
      ['a', 'b'] hmem,
    (split_no_empty_token ['a', 'b', ',', ',', 'c', 'd', ','] [','] true).2⟩

end Caf
